import Mathlib

/-!
Verification of the inbox-management pipeline of the `agents` repository.

The definitions below are a shallow embedding of the TypeScript sources:
  * `src/agents/email-assistant.ts` — the orchestrator (`run`), the classifier
    (`performTriage`), the drafter (`createDrafts`) and the watchman
    (`performWatchman`);
  * `src/google.ts` — `getOrCreateLabel` over a label-store model.

External services (the Gemini language model, the Gmail mailbox) are modelled
as explicit inputs: a model reply is an `Option String` (`none` meaning the
call threw), mailbox mutations are recorded as effect lists, and per-item
failures of mailbox calls are driven by explicit boolean oracles.  Model
replies are untyped JSON: we embed a JSON value type and a parser that models
JavaScript `JSON.parse`, plus the greedy bracket extraction performed by the
regular expression match used in the sources.
-/

namespace InboxAgent

/-! ## String helpers (JavaScript `String.prototype.includes` model) -/

/-- `startsWithChars hay needle` holds when `needle` occurs at the start of `hay`. -/
def startsWithChars : List Char → List Char → Bool
  | _, [] => true
  | [], _ :: _ => false
  | a :: as, b :: bs => a == b && startsWithChars as bs

/-- `hasSub hay needle` holds when `needle` occurs contiguously inside `hay`. -/
def hasSub : List Char → List Char → Bool
  | [], needle => needle.isEmpty
  | hay@(_ :: rest), needle => startsWithChars hay needle || hasSub rest needle

/-- Model of JavaScript `hay.includes(needle)`. -/
def strIncludes (hay needle : String) : Bool :=
  hasSub hay.toList needle.toList

/-- Model of JavaScript `toLowerCase` (per-character lowering; structural so
that the kernel can evaluate it, unlike the position-recursive
`String.toLower`, which computes the same string). -/
def strLower (s : String) : String := String.mk (s.data.map Char.toLower)

/-- Model of JavaScript `toUpperCase` (per-character raising). -/
def strUpper (s : String) : String := String.mk (s.data.map Char.toUpper)

/-! ## JSON values and a model of JavaScript `JSON.parse`

Numbers keep their source lexeme: the pipeline never computes with numeric
values, only parse success/failure and string fields matter. -/

inductive Json where
  | null : Json
  | bool (b : Bool) : Json
  | num (lit : String) : Json
  | str (s : String) : Json
  | arr (elems : List Json) : Json
  | obj (fields : List (String × Json)) : Json

/-- Whether a JSON value is the literal `null`. -/
def isNullJ : Json → Bool
  | Json.null => true
  | _ => false

/-- JSON whitespace characters (space, tab, line feed, carriage return). -/
def isJsonWs (c : Char) : Bool :=
  c == ' ' || c == '\t' || c == '\n' || c == '\r'

def skipWs : List Char → List Char
  | [] => []
  | c :: cs => if isJsonWs c then skipWs cs else c :: cs

def isHexDigit (c : Char) : Bool :=
  c.isDigit || ('a' ≤ c && c ≤ 'f') || ('A' ≤ c && c ≤ 'F')

def hexVal (c : Char) : Nat :=
  if c.isDigit then c.toNat - 48
  else if 'a' ≤ c then c.toNat - 87
  else c.toNat - 55

/-- Parse the remainder of a JSON string literal (the opening quote is already
consumed), handling the escape sequences accepted by `JSON.parse` and
rejecting raw control characters. -/
def parseJStr : Nat → List Char → List Char → Option (String × List Char)
  | 0, _, _ => none
  | _ + 1, _, [] => none
  | fuel + 1, acc, c :: rest =>
    if c == '"' then some (String.mk acc.reverse, rest)
    else if c == '\\' then
      match rest with
      | [] => none
      | e :: rest' =>
        if e == '"' then parseJStr fuel ('"' :: acc) rest'
        else if e == '\\' then parseJStr fuel ('\\' :: acc) rest'
        else if e == '/' then parseJStr fuel ('/' :: acc) rest'
        else if e == 'b' then parseJStr fuel (Char.ofNat 8 :: acc) rest'
        else if e == 'f' then parseJStr fuel (Char.ofNat 12 :: acc) rest'
        else if e == 'n' then parseJStr fuel ('\n' :: acc) rest'
        else if e == 'r' then parseJStr fuel ('\r' :: acc) rest'
        else if e == 't' then parseJStr fuel ('\t' :: acc) rest'
        else if e == 'u' then
          match rest' with
          | h1 :: h2 :: h3 :: h4 :: rest'' =>
            if isHexDigit h1 && isHexDigit h2 && isHexDigit h3 && isHexDigit h4 then
              let code := hexVal h1 * 4096 + hexVal h2 * 256 + hexVal h3 * 16 + hexVal h4
              parseJStr fuel (Char.ofNat code :: acc) rest''
            else none
          | _ => none
        else none
    else if c.toNat < 32 then none
    else parseJStr fuel (c :: acc) rest

/-- Optional fraction part of a JSON number (`.digits`). -/
def parseFracPart (cs : List Char) : Option (List Char × List Char) :=
  match cs with
  | '.' :: r =>
    let (ds, r') := r.span (·.isDigit)
    if ds.isEmpty then none else some ('.' :: ds, r')
  | _ => some ([], cs)

/-- Optional exponent part of a JSON number (`e`/`E`, optional sign, digits). -/
def parseExpPart (cs : List Char) : Option (List Char × List Char) :=
  match cs with
  | c :: r =>
    if c == 'e' || c == 'E' then
      let (sgn, r1) :=
        match r with
        | '+' :: r2 => (['+'], r2)
        | '-' :: r2 => (['-'], r2)
        | _ => ([], r)
      let (ds, r2) := r1.span (·.isDigit)
      if ds.isEmpty then none else some (c :: (sgn ++ ds), r2)
    else some ([], cs)
  | [] => some ([], [])

/-- JSON number grammar: `-? (0 | [1-9][0-9]*) frac? exp?`. -/
def parseNum (cs : List Char) : Option (String × List Char) :=
  let (sign, cs1) :=
    match cs with
    | '-' :: r => (['-'], r)
    | _ => ([], cs)
  match cs1 with
  | '0' :: r =>
    match parseFracPart r with
    | none => none
    | some (fr, r1) =>
      match parseExpPart r1 with
      | none => none
      | some (ex, r2) => some (String.mk (sign ++ '0' :: (fr ++ ex)), r2)
  | c :: _ =>
    if c.isDigit then
      let (ds, r) := cs1.span (·.isDigit)
      match parseFracPart r with
      | none => none
      | some (fr, r1) =>
        match parseExpPart r1 with
        | none => none
        | some (ex, r2) => some (String.mk (sign ++ ds ++ fr ++ ex), r2)
    else none
  | [] => none

mutual

/-- Parse one JSON value, returning the unconsumed suffix. -/
def parseVal : Nat → List Char → Option (Json × List Char)
  | 0, _ => none
  | fuel + 1, cs0 =>
    match skipWs cs0 with
    | '{' :: r =>
      match skipWs r with
      | '}' :: r2 => some (Json.obj [], r2)
      | r1 => parseMembers fuel [] r1
    | '[' :: r =>
      match skipWs r with
      | ']' :: r2 => some (Json.arr [], r2)
      | r1 => parseItems fuel [] r1
    | '"' :: r => (parseJStr (r.length + 1) [] r).map (fun p => (Json.str p.1, p.2))
    | 't' :: 'r' :: 'u' :: 'e' :: r => some (Json.bool true, r)
    | 'f' :: 'a' :: 'l' :: 's' :: 'e' :: r => some (Json.bool false, r)
    | 'n' :: 'u' :: 'l' :: 'l' :: r => some (Json.null, r)
    | cs => (parseNum cs).map (fun p => (Json.num p.1, p.2))

/-- Parse the remaining items of a non-empty JSON array. -/
def parseItems : Nat → List Json → List Char → Option (Json × List Char)
  | 0, _, _ => none
  | fuel + 1, acc, cs =>
    match parseVal fuel cs with
    | none => none
    | some (v, r) =>
      match skipWs r with
      | ',' :: r2 => parseItems fuel (v :: acc) r2
      | ']' :: r2 => some (Json.arr (v :: acc).reverse, r2)
      | _ => none

/-- Parse the remaining members of a non-empty JSON object. -/
def parseMembers : Nat → List (String × Json) → List Char → Option (Json × List Char)
  | 0, _, _ => none
  | fuel + 1, acc, cs =>
    match cs with
    | '"' :: r =>
      match parseJStr (r.length + 1) [] r with
      | none => none
      | some (k, r2) =>
        match skipWs r2 with
        | ':' :: r3 =>
          match parseVal fuel r3 with
          | none => none
          | some (v, r4) =>
            match skipWs r4 with
            | ',' :: r5 => parseMembers fuel ((k, v) :: acc) (skipWs r5)
            | '}' :: r5 => some (Json.obj ((k, v) :: acc).reverse, r5)
            | _ => none
        | _ => none
    | _ => none

end

/-- Model of JavaScript `JSON.parse`: a single value surrounded by optional
whitespace, the whole input consumed; `none` models a thrown `SyntaxError`. -/
def jsonParse (s : String) : Option Json :=
  match parseVal (2 * s.length + 8) s.toList with
  | some (v, rest) => if (skipWs rest).isEmpty then some v else none
  | none => none

/-! ## The regex extraction `response.match(/\[[\s\S]*\]/)`

Both `performTriage` and `performWatchman` extract the JSON payload with this
match.  Its semantics: the match starts at the leftmost `[` that is followed
by some later `]`, and — `[\s\S]*` being greedy — extends to the **last** `]`
of the whole text. -/

/-- Index of the first character satisfying `p`. -/
def firstIdxAux (p : Char → Bool) : List Char → Option Nat
  | [] => none
  | c :: cs => if p c then some 0 else (firstIdxAux p cs).map (· + 1)

/-- Index of the last character satisfying `p`. -/
def lastIdxAux (p : Char → Bool) : List Char → Option Nat
  | [] => none
  | c :: cs =>
    match lastIdxAux p cs with
    | some k => some (k + 1)
    | none => if p c then some 0 else none

/-- Model of `s.match(/\[[\s\S]*\]/)`: the substring from the first `[` to the
last `]`, provided the latter comes after the former; `none` models a failed
match. -/
def extractArray (s : String) : Option String :=
  match firstIdxAux (· == '[') s.toList, lastIdxAux (· == ']') s.toList with
  | some i, some j =>
    if i < j then some (String.mk ((s.toList.drop i).take (j - i + 1))) else none
  | _, _ => none

/-! ## Data model (`EmailData`, `src/agents/prompts/email-assistant.ts`) -/

/-- The `EmailData` record built by `run` for each fetched message.  The TS
fields `from`/`to` are spelled `fromAddr`/`toAddr` (keywords in Lean); the TS
`body: { text, html }` is flattened into `bodyText`/`bodyHtml`.  `labels` is
the (always-present in `run`) `labelIds` list. -/
structure EmailData where
  id : String
  threadId : String
  fromAddr : String
  toAddr : String
  subject : String
  snippet : String
  bodyText : String
  bodyHtml : String
  date : String
  labels : List String
deriving DecidableEq

/-! ## Untyped field access on parsed decisions

`performTriage` casts `JSON.parse` output to `TriageResult[]` without
validation; `run` and the triage loop then read `r.id`, `r.action`,
`r.labelName` off those untyped values.  `jget` models JavaScript property
access on a parsed JSON value (`none` = `undefined`; later duplicate keys win
as in `JSON.parse`), and `jFieldIsStr j k v` models the strict-equality test
`j.k === v` for a string `v`. -/

def jget (j : Json) (k : String) : Option Json :=
  match j with
  | Json.obj fields => (fields.reverse.find? (fun p => p.1 == k)).map (fun p => p.2)
  | _ => none

def jFieldIsStr (j : Json) (k : String) (v : String) : Bool :=
  match jget j k with
  | some (Json.str s) => s == v
  | _ => false

/-! ## Partitioning (orchestrator `run`, email-assistant.ts lines 108–119) -/

/-- `emails.filter((e) => !triageResults.find((r) => r.id === e.id &&
(r.action === 'archive' || r.action === 'label')))` — the Drafter input. -/
def importantEmails (emails : List EmailData) (triageResults : List Json) : List EmailData :=
  emails.filter (fun e =>
    !(triageResults.any (fun r =>
      jFieldIsStr r "id" e.id &&
        (jFieldIsStr r "action" "archive" || jFieldIsStr r "action" "label"))))

/-- `emails.filter((e) => triageResults.find((r) => r.id === e.id &&
r.action === 'vip'))` — the pinned VIP set. -/
def vipEmails (emails : List EmailData) (triageResults : List Json) : List EmailData :=
  emails.filter (fun e =>
    triageResults.any (fun r => jFieldIsStr r "id" e.id && jFieldIsStr r "action" "vip"))

/-- `[...importantEmails, ...vipEmails]` — the argument of `performWatchman`. -/
def watchmanInput (emails : List EmailData) (triageResults : List Json) : List EmailData :=
  importantEmails emails triageResults ++ vipEmails emails triageResults

/-! ## Triage side-effect loop (`performTriage`, lines 156–180) -/

/-- A mailbox mutation requested by the triage loop.  `labeled` stands for the
pair get-or-create-label + apply-label, `vipLabeled` for the same pair with
the fixed name `"VIP"`.  Per-action mailbox failures are caught, logged and
skipped by the inner `try`, so the requested actions do not depend on them. -/
inductive TriageEffect where
  | archived (id : String) : TriageEffect
  | labeled (id : String) (labelName : String) : TriageEffect
  | vipLabeled (id : String) : TriageEffect
deriving DecidableEq

/-- `result.labelName || 'Low Priority'`: the declared type of `labelName` is
`string | undefined`, so the JavaScript truthiness test is modelled for
string-or-absent values (absent or empty string falls back to the default). -/
def labelNameOf (r : Json) : String :=
  match jget r "labelName" with
  | some (Json.str s) => if s == "" then "Low Priority" else s
  | _ => "Low Priority"

/-- One iteration of the triage loop body for a non-`null` decision:
`emails.find((e) => e.id === result.id)` then the `if/else if` action chain
(`important` and unrecognized actions perform no mailbox call). -/
def triageStep (emails : List EmailData) (r : Json) : List TriageEffect :=
  match emails.find? (fun e => jFieldIsStr r "id" e.id) with
  | none => []
  | some e =>
    if jFieldIsStr r "action" "archive" then [TriageEffect.archived e.id]
    else if jFieldIsStr r "action" "label" then [TriageEffect.labeled e.id (labelNameOf r)]
    else if jFieldIsStr r "action" "vip" then [TriageEffect.vipLabeled e.id]
    else []

/-- The triage loop over all parsed decisions.  Reading `result.id` off a
`null` element throws a `TypeError`; that throw happens outside the inner
`try`, so it aborts the loop and is caught by the outer handler (second
component `false`).  Effects of earlier iterations have already been issued. -/
def triageLoop (emails : List EmailData) : List Json → List TriageEffect × Bool
  | [] => ([], true)
  | Json.null :: _ => ([], false)
  | r :: rest =>
    (triageStep emails r ++ (triageLoop emails rest).1, (triageLoop emails rest).2)

/-! ## `performTriage` (lines 136–187) -/

/-- Observable outcome of one `performTriage` call.  `modelCalled` records
whether `gemini.generateWithSystem` was invoked; `decisions` is the returned
`TriageResult[]` (untyped parsed values); `failureLogged` records that one of
the `this.error` failure paths ran (unparseable reply, or the outer `catch`).
The outer `try/catch` makes the function total: no exception escapes. -/
structure TriageRun where
  modelCalled : Bool
  decisions : List Json
  failureLogged : Bool
  effects : List TriageEffect

/-- `performTriage`: build prompt, call the model (a reply of `none` models a
thrown model call), match `/\[[\s\S]*\]/`, `JSON.parse` the match, run the
action loop, return the parsed decisions.  Every failure path returns `[]`. -/
def performTriage (emails : List EmailData) (modelReply : Option String) : TriageRun :=
  match modelReply with
  | none => ⟨true, [], true, []⟩
  | some response =>
    match extractArray response with
    | none => ⟨true, [], true, []⟩
    | some s =>
      match jsonParse s with
      | none => ⟨true, [], true, []⟩
      | some (Json.arr items) =>
        if (triageLoop emails items).2 then
          ⟨true, items, false, (triageLoop emails items).1⟩
        else
          ⟨true, [], true, (triageLoop emails items).1⟩
      | some _ => ⟨true, [], true, []⟩

/-- The guard in `run` (lines 98–105): when no email could be processed the
method returns before Phase 1, so `performTriage` — and hence the model — is
never invoked on an empty message list. -/
def runTriagePhase (emails : List EmailData) (modelReply : Option String) :
    Option TriageRun :=
  if emails.isEmpty then none else some (performTriage emails modelReply)

/-! ## The Watchman (`performWatchman`, lines 259–327)

The calendar fetch and prompt construction only shape the model prompt; the
model reply is again an explicit `Option String`.  The per-intervention
failure of `getEmailContent`/`createDraft` inside a `draft-request` is driven
by the oracle `fail : String → Bool` (indexed by the resolved email's id). -/

/-- A mailbox mutation performed by the Watchman: the link-request reply draft
created for the resolved email. -/
inductive WatchEffect where
  | draftCreated (emailId : String) : WatchEffect

/-- A log line emitted while processing one intervention: the latency nudge,
the spiral flag, the successful link-request draft, or the
`Failed to process watchman intervention` error from the inner `catch`. -/
inductive WatchLog where
  | nudged (i : Json) : WatchLog
  | flagged (i : Json) : WatchLog
  | draftedLinkRequest (emailId : String) : WatchLog
  | stepError : WatchLog

/-- `importantEmails.find((e) => e.id === intervention.emailId ||
e.threadId === intervention.threadId)` — reference resolution for a
`draft-request`. -/
def resolveRef (emails : List EmailData) (i : Json) : Option EmailData :=
  emails.find? (fun e =>
    jFieldIsStr i "emailId" e.id || jFieldIsStr i "threadId" e.threadId)

/-- One iteration of the intervention loop (effects, logs).  Reading `.action`
off a `null` element throws inside the per-intervention `try`, which catches
and logs it; a nudge or flag only logs; a `draft-request` whose reference
does not resolve does nothing at all (the `if (email)` has no `else`); a
resolved `draft-request` creates the templated reply draft unless the
mailbox calls fail, in which case the inner `catch` logs the error. -/
def watchStep (emails : List EmailData) (fail : String → Bool) (i : Json) :
    List WatchEffect × List WatchLog :=
  match i with
  | Json.null => ([], [WatchLog.stepError])
  | _ =>
    if jFieldIsStr i "action" "nudge" then ([], [WatchLog.nudged i])
    else if jFieldIsStr i "action" "draft-request" then
      match resolveRef emails i with
      | none => ([], [])
      | some e =>
        if fail e.id then ([], [WatchLog.stepError])
        else ([WatchEffect.draftCreated e.id], [WatchLog.draftedLinkRequest e.id])
    else if jFieldIsStr i "action" "flag" then ([], [WatchLog.flagged i])
    else ([], [])

/-- The intervention loop, in the order returned by the model. -/
def watchLoop (emails : List EmailData) (fail : String → Bool) :
    List Json → List WatchEffect × List WatchLog
  | [] => ([], [])
  | i :: rest =>
    ((watchStep emails fail i).1 ++ (watchLoop emails fail rest).1,
      (watchStep emails fail i).2 ++ (watchLoop emails fail rest).2)

/-- Observable outcome of one `performWatchman` call (same reading as
`TriageRun`; the parse pipeline sits inside the outer `try`, so parse
failures are logged and yield an empty intervention list, never a throw). -/
structure WatchmanRun where
  modelCalled : Bool
  interventions : List Json
  failureLogged : Bool
  effects : List WatchEffect
  logs : List WatchLog

/-- `performWatchman`: call the model, match `/\[[\s\S]*\]/`, `JSON.parse`,
run the intervention loop, return the parsed interventions. -/
def performWatchman (emails : List EmailData) (fail : String → Bool)
    (modelReply : Option String) : WatchmanRun :=
  match modelReply with
  | none => ⟨true, [], true, [], []⟩
  | some response =>
    match extractArray response with
    | none => ⟨true, [], true, [], []⟩
    | some s =>
      match jsonParse s with
      | none => ⟨true, [], true, [], []⟩
      | some (Json.arr items) =>
        ⟨true, items, false,
          (watchLoop emails fail items).1, (watchLoop emails fail items).2⟩
      | some _ => ⟨true, [], true, [], []⟩

/-! ## The Drafter (`createDrafts`, lines 189–257) -/

/-- A draft record pushed into `draftResults`. -/
structure DraftRecord where
  emailId : String
  draftId : String
  subject : String
deriving DecidableEq

/-- The arguments of a `createDraft` mailbox call issued by the Drafter. -/
structure DraftCall where
  toAddr : String
  subject : String
  body : String
  threadId : String
  replyToMessageId : String
deriving DecidableEq

/-- External world of one `createDrafts` run.  `llmReply e` is the text
returned by `gemini.generateWithSystem` for `e` (`none`: the call threw);
`refetchFrom e` is the `from` header of the re-fetched message (`none`: the
`getEmailContent` call threw); `createFails e` makes the `createDraft` call
throw; `draftIdOf e` is the server-assigned `draft.id || ''`. -/
structure DraftEnv where
  llmReply : EmailData → Option String
  refetchFrom : EmailData → Option String
  createFails : EmailData → Bool
  draftIdOf : EmailData → String

/-- `email.labels?.includes('SENT') || email.labels?.includes('DRAFT')` — the
already-replied / already-drafted guard, checked before anything else. -/
def draftSkipLabels (e : EmailData) : Bool :=
  e.labels.contains "SENT" || e.labels.contains "DRAFT"

/-- The Jira-notification heuristic. -/
def isJiraNotification (e : EmailData) : Bool :=
  strIncludes (strLower e.fromAddr) "jira" ||
    strIncludes (strLower e.fromAddr) "atlassian" ||
    strIncludes (strLower e.subject) "[jira]"

/-- The Google-Docs-notification heuristic. -/
def isGoogleDocNotification (e : EmailData) : Bool :=
  strIncludes (strLower e.fromAddr) "docs.google.com" ||
    strIncludes (strLower e.fromAddr) "google docs" ||
    strIncludes (strLower e.subject) "commented on"

/-- Strip header-like lines the model may have echoed: each `^To:`/
`^Subject:`/`^From:` line is blanked (multiline regex replace), then the
whole text is trimmed. -/
def cleanDraftBody (raw : String) : String :=
  (String.intercalate "\n"
    ((raw.splitOn "\n").map (fun line =>
      if line.startsWith "To:" || line.startsWith "Subject:" || line.startsWith "From:"
      then "" else line))).trim

/-- Outcome of the loop body for one email: whether the drafting model call
was made, the record pushed (if any), and the `createDraft` call issued
(if any). -/
structure DraftAttempt where
  llmCalled : Bool
  record : Option DraftRecord
  createCall : Option DraftCall

/-- The loop body of `createDrafts` for one email: label guard, notification
heuristics, model call, `SKIP_DRAFT` sentinel, header re-fetch with
`headers.from || email.from` fallback, then the threaded `createDraft`.  Any
per-email failure is caught and logged and yields no record. -/
def draftHandle (env : DraftEnv) (e : EmailData) : DraftAttempt :=
  if draftSkipLabels e then ⟨false, none, none⟩
  else if isJiraNotification e || isGoogleDocNotification e then ⟨false, none, none⟩
  else
    match env.llmReply e with
    | none => ⟨true, none, none⟩
    | some reply =>
      if strUpper reply.trim == "SKIP_DRAFT" then ⟨true, none, none⟩
      else
        match env.refetchFrom e with
        | none => ⟨true, none, none⟩
        | some hfrom =>
          let replyTo := if hfrom == "" then e.fromAddr else hfrom
          let replySubject :=
            if e.subject.startsWith "Re:" then e.subject else "Re: " ++ e.subject
          if env.createFails e then ⟨true, none, none⟩
          else
            ⟨true, some ⟨e.id, env.draftIdOf e, e.subject⟩,
              some ⟨replyTo, replySubject, cleanDraftBody reply, e.threadId, e.id⟩⟩

/-- Observable outcome of `createDrafts`: the emails for which the drafting
model call was made, the returned records, and the issued mailbox calls. -/
structure DraftsOutcome where
  llmCalls : List EmailData
  records : List DraftRecord
  createCalls : List DraftCall
deriving DecidableEq

/-- The Drafter loop over a list of emails. -/
def draftLoop (env : DraftEnv) : List EmailData → DraftsOutcome
  | [] => ⟨[], [], []⟩
  | e :: rest =>
    ⟨(if (draftHandle env e).llmCalled then [e] else []) ++ (draftLoop env rest).llmCalls,
      (draftHandle env e).record.toList ++ (draftLoop env rest).records,
      (draftHandle env e).createCall.toList ++ (draftLoop env rest).createCalls⟩

/-- `createDrafts`: `emails.slice(0, 20)` then the per-email loop. -/
def createDrafts (env : DraftEnv) (emails : List EmailData) : DraftsOutcome :=
  draftLoop env (emails.take 20)

/-! ## `getOrCreateLabel` (`src/google.ts`, lines 189–213)

The Gmail label collection is modelled as a store of `(id, name)` records
plus a counter from which the server mints fresh label ids. -/

structure GmailLabel where
  id : String
  name : String
deriving DecidableEq

structure LabelStore where
  labels : List GmailLabel
  nextId : Nat
deriving DecidableEq

/-- Result of one `getOrCreateLabel` call: the returned id, the store after
the call, and whether a `labels.create` request was issued. -/
structure LabelResult where
  labelId : String
  store : LabelStore
  created : Bool
deriving DecidableEq

/-- The `labels.create` request: the server mints a fresh id and appends the
new label. -/
def createLabel (labelName : String) (s : LabelStore) : LabelResult :=
  let newId := "Label_" ++ toString s.nextId
  ⟨newId, ⟨s.labels ++ [⟨newId, labelName⟩], s.nextId + 1⟩, true⟩

/-- `getOrCreateLabel`: list the labels, look for one whose name matches
case-insensitively, return its id when the found label has a truthy id
(`existingLabel?.id`), otherwise create the label. -/
def getOrCreateLabel (labelName : String) (s : LabelStore) : LabelResult :=
  match s.labels.find? (fun l => strLower l.name == strLower labelName) with
  | some l => if l.id == "" then createLabel labelName s else ⟨l.id, s, false⟩
  | none => createLabel labelName s

/-! ## Concrete sample data used by witnesses and counterexamples -/

/-- A sample fetched message. -/
def msgA : EmailData :=
  ⟨"m1", "t1", "boss@corp.com", "me@corp.com", "Quarterly plan", "snip", "body", "", "2025-01-02", []⟩

/-- A parsed `vip` decision for `msgA`. -/
def vipDec : Json :=
  Json.obj [("id", Json.str "m1"), ("action", Json.str "vip"), ("reason", Json.str "boss")]

/-- A parsed `archive` decision for `msgA`. -/
def archiveDec : Json :=
  Json.obj [("id", Json.str "m1"), ("action", Json.str "archive"), ("reason", Json.str "noise")]

/-- Two decisions for the same message id. -/
def dupDecisions : List Json := [archiveDec, vipDec]

/-- A parsed `nudge` intervention. -/
def nudgeDec : Json :=
  Json.obj [("type", Json.str "latency"), ("action", Json.str "nudge"),
    ("message", Json.str "this has sat for 5 hours")]

/-- A `draft-request` intervention whose reference matches no known message. -/
def unresolvedReq : Json :=
  Json.obj [("type", Json.str "missing-link"), ("action", Json.str "draft-request"),
    ("message", Json.str "meeting lacks a link"), ("emailId", Json.str "ghost"),
    ("threadId", Json.str "ghost-t")]

/-- A `draft-request` intervention that resolves to `msgA`. -/
def resolvedReq : Json :=
  Json.obj [("type", Json.str "missing-link"), ("action", Json.str "draft-request"),
    ("message", Json.str "meeting lacks a link"), ("emailId", Json.str "m1")]

/-- A message already carrying a terminal `DRAFT` label. -/
def msgTerminal : EmailData :=
  ⟨"m2", "t2", "peer@corp.com", "me@corp.com", "Sync", "s", "b", "", "2025-01-02", ["DRAFT"]⟩

/-- A benign Drafter environment. -/
def envA : DraftEnv :=
  ⟨fun _ => some "Sounds good, see you then.", fun _ => some "peer@corp.com",
    fun _ => false, fun _ => "d1"⟩

/-- A label store holding one well-formed label. -/
def storeA : LabelStore := ⟨[⟨"L7", "VIP"⟩], 0⟩

/-- A well-formed decision array reply, as a string. -/
def cexFirstArray : String :=
  "[\x7b\"id\":\"m1\",\"action\":\"vip\",\"reason\":\"r\"\x7d]"

/-- The same reply followed by prose that itself contains brackets. -/
def cexReply : String := cexFirstArray ++ " and note [caveats] apply"

/-- Member text of a well-formed single-decision array, for the C6 witness. -/
def wMid : String :=
  "\x7b\"id\":\"m9\",\"action\":\"important\",\"reason\":\"ok\"\x7d"

/-- The decisions `wMid`'s array parses to. -/
def wItems : List Json :=
  [Json.obj [("id", Json.str "m9"), ("action", Json.str "important"),
    ("reason", Json.str "ok")]]

/-! ## Helper lemmas -/

theorem jget_of_jFieldIsStr {j : Json} {k v : String}
    (h : jFieldIsStr j k v = true) : jget j k = some (Json.str v) := by
  unfold jFieldIsStr at h
  cases hg : jget j k with
  | none => rw [hg] at h; cases h
  | some x =>
    rw [hg] at h
    cases x with
    | str s => rw [show s = v from by simpa using h]
    | null => cases h
    | bool b => cases h
    | num n => cases h
    | arr a => cases h
    | obj f => cases h

theorem jFieldIsStr_of_jget {j : Json} {k v : String}
    (h : jget j k = some (Json.str v)) (w : String) :
    jFieldIsStr j k w = (v == w) := by
  unfold jFieldIsStr
  rw [h]

/-- A loop over decisions none of which is `null` completes normally. -/
theorem triageLoop_ok_of_no_null (emails : List EmailData) :
    ∀ items : List Json, Json.null ∉ items → (triageLoop emails items).2 = true := by
  intro items
  induction items with
  | nil => intro _; rfl
  | cons j rest ih =>
    intro h
    have hrest : Json.null ∉ rest := fun hm => h (List.mem_cons_of_mem _ hm)
    cases j with
    | null => exact absurd (List.mem_cons_self _ _) h
    | bool b => simpa [triageLoop] using ih hrest
    | num n => simpa [triageLoop] using ih hrest
    | str s => simpa [triageLoop] using ih hrest
    | arr a => simpa [triageLoop] using ih hrest
    | obj f => simpa [triageLoop] using ih hrest

theorem firstIdxAux_cons (p : Char → Bool) (c : Char) (cs : List Char) :
    firstIdxAux p (c :: cs)
      = if p c then some 0 else (firstIdxAux p cs).map (· + 1) := rfl

theorem lastIdxAux_cons (p : Char → Bool) (c : Char) (cs : List Char) :
    lastIdxAux p (c :: cs)
      = match lastIdxAux p cs with
        | some k => some (k + 1)
        | none => if p c then some 0 else none := rfl

theorem firstIdxAux_append_of_none (p : Char → Bool) (l1 l2 : List Char)
    (h : ∀ c ∈ l1, p c = false) :
    firstIdxAux p (l1 ++ l2) = (firstIdxAux p l2).map (· + l1.length) := by
  induction l1 with
  | nil =>
    simp only [List.nil_append, List.length_nil]
    cases hcase : firstIdxAux p l2 <;> simp [hcase]
  | cons c cs ih =>
    have hc : p c = false := h c (List.mem_cons_self _ _)
    have ih' := ih (fun x hx => h x (List.mem_cons_of_mem _ hx))
    rw [List.cons_append, firstIdxAux_cons, if_neg (by simp [hc]), ih']
    cases hcase : firstIdxAux p l2 <;> simp [hcase, Nat.add_assoc]

theorem lastIdxAux_eq_none (p : Char → Bool) (l : List Char)
    (h : ∀ c ∈ l, p c = false) : lastIdxAux p l = none := by
  induction l with
  | nil => rfl
  | cons c cs ih =>
    have hc : p c = false := h c (List.mem_cons_self _ _)
    have ih' := ih (fun x hx => h x (List.mem_cons_of_mem _ hx))
    simp [lastIdxAux, ih', hc]

theorem lastIdxAux_append_of_none (p : Char → Bool) (l1 l2 : List Char)
    (h : lastIdxAux p l2 = none) :
    lastIdxAux p (l1 ++ l2) = lastIdxAux p l1 := by
  induction l1 with
  | nil => simpa using h
  | cons c cs ih => rw [List.cons_append, lastIdxAux_cons, ih, lastIdxAux_cons]

theorem lastIdxAux_append_of_some (p : Char → Bool) (l1 l2 : List Char) (k : Nat)
    (h : lastIdxAux p l2 = some k) :
    lastIdxAux p (l1 ++ l2) = some (l1.length + k) := by
  induction l1 with
  | nil => simpa using h
  | cons c cs ih =>
    rw [List.cons_append, lastIdxAux_cons, ih]
    simp only [List.length_cons]
    congr 1
    omega

theorem strToList_append (a b : String) : (a ++ b).toList = a.toList ++ b.toList := rfl

/-- The regex model on a reply of shape `pre ++ [mid] ++ post` where `pre` has
no opening and `post` no closing bracket: the match is exactly the embedded
array text. -/
theorem extractArray_sandwich (pre mid post : String)
    (h1 : ∀ c ∈ pre.toList, (c == '[') = false)
    (h2 : ∀ c ∈ post.toList, (c == ']') = false) :
    extractArray (pre ++ ("[" ++ mid ++ "]") ++ post) = some ("[" ++ mid ++ "]") := by
  have harr : ("[" ++ mid ++ "]").toList = '[' :: (mid.toList ++ [']']) := rfl
  have hfull : (pre ++ ("[" ++ mid ++ "]") ++ post).toList
      = pre.toList ++ (('[' :: (mid.toList ++ [']'])) ++ post.toList) := by
    rw [strToList_append, strToList_append, harr, List.append_assoc]
  have hf : firstIdxAux (· == '[')
      (pre.toList ++ (('[' :: (mid.toList ++ [']'])) ++ post.toList))
      = some pre.toList.length := by
    rw [firstIdxAux_append_of_none _ _ _ h1]
    simp [firstIdxAux]
  have hmid : lastIdxAux (· == ']') (mid.toList ++ [']']) = some mid.toList.length := by
    have h0 : lastIdxAux (· == ']') [']'] = some 0 := rfl
    simpa using lastIdxAux_append_of_some _ mid.toList [']'] 0 h0
  have hA : lastIdxAux (· == ']') ('[' :: (mid.toList ++ [']']))
      = some (mid.toList.length + 1) := by
    rw [lastIdxAux_cons, hmid]
  have hl : lastIdxAux (· == ']')
      (pre.toList ++ (('[' :: (mid.toList ++ [']'])) ++ post.toList))
      = some (pre.toList.length + (mid.toList.length + 1)) := by
    rw [lastIdxAux_append_of_some _ _ _ _
      (by rw [lastIdxAux_append_of_none _ _ _ (lastIdxAux_eq_none _ _ h2)]; exact hA)]
  unfold extractArray
  rw [hfull, hf, hl]
  dsimp only
  rw [if_pos (by omega)]
  have harith : pre.toList.length + (mid.toList.length + 1) - pre.toList.length + 1
      = mid.toList.length + 2 := by omega
  rw [harith, List.drop_left]
  have hAlen : ('[' :: (mid.toList ++ [']'])).length = mid.toList.length + 2 := by
    simp
  rw [List.take_left' hAlen, ← harr]
  rfl

/-- The two pre-filters of the Drafter loop combined: the email reaches the
language-model call iff it carries neither terminal label nor matches a
notification heuristic. -/
def draftSurvives (e : EmailData) : Bool :=
  !draftSkipLabels e && !(isJiraNotification e || isGoogleDocNotification e)

theorem draftHandle_llmCalled (env : DraftEnv) (e : EmailData) :
    (draftHandle env e).llmCalled = draftSurvives e := by
  unfold draftHandle draftSurvives
  cases hs : draftSkipLabels e with
  | true => simp [hs]
  | false =>
    cases hn : (isJiraNotification e || isGoogleDocNotification e) with
    | true => simp [hn]
    | false =>
      simp only [Bool.not_false, Bool.and_self, if_false, Bool.false_eq_true, if_true]
      cases env.llmReply e with
      | none => simp
      | some reply =>
        cases hskip : (strUpper reply.trim == "SKIP_DRAFT") with
        | true => simp [hskip]
        | false =>
          simp only [hskip, Bool.false_eq_true, if_false]
          cases env.refetchFrom e with
          | none => simp
          | some hfrom =>
            cases hcf : env.createFails e with
            | true => simp [hcf]
            | false => simp [hcf]

theorem draftHandle_record_eq (env : DraftEnv) (e : EmailData) (r : DraftRecord)
    (h : (draftHandle env e).record = some r) :
    draftSurvives e = true ∧ r.emailId = e.id := by
  unfold draftHandle at h
  repeat' split at h
  all_goals simp_all [draftSurvives]
  all_goals rw [← h]

theorem draftLoop_llmCalls (env : DraftEnv) :
    ∀ l : List EmailData, (draftLoop env l).llmCalls = l.filter draftSurvives := by
  intro l
  induction l with
  | nil => rfl
  | cons e rest ih =>
    simp only [draftLoop, ih, draftHandle_llmCalled, List.filter_cons]
    cases hs : draftSurvives e <;> simp [hs]

theorem draftLoop_records_mem (env : DraftEnv) :
    ∀ (l : List EmailData) (r : DraftRecord), r ∈ (draftLoop env l).records →
      ∃ e ∈ l, (draftHandle env e).record = some r := by
  intro l
  induction l with
  | nil => intro r h; simp [draftLoop] at h
  | cons e rest ih =>
    intro r h
    simp only [draftLoop] at h
    rw [List.mem_append] at h
    rcases h with h | h
    · refine ⟨e, List.mem_cons_self _ _, ?_⟩
      cases hr : (draftHandle env e).record with
      | none => rw [hr] at h; cases h
      | some r' =>
        rw [hr] at h
        simp only [Option.toList_some, List.mem_singleton] at h
        rw [h]
    · obtain ⟨e', he', hrec⟩ := ih r h
      exact ⟨e', List.mem_cons_of_mem _ he', hrec⟩

/-- Unfolding of `watchLoop` on a non-empty intervention list. -/
theorem watchLoop_cons (emails : List EmailData) (fail : String → Bool)
    (i : Json) (rest : List Json) :
    watchLoop emails fail (i :: rest)
      = ((watchStep emails fail i).1 ++ (watchLoop emails fail rest).1,
          (watchStep emails fail i).2 ++ (watchLoop emails fail rest).2) := rfl

/-- Unfolding of `performTriage` for a reply that did not throw. -/
theorem performTriage_some (emails : List EmailData) (response : String) :
    performTriage emails (some response)
      = match extractArray response with
        | none => ⟨true, [], true, []⟩
        | some s =>
          match jsonParse s with
          | none => ⟨true, [], true, []⟩
          | some (Json.arr items) =>
            if (triageLoop emails items).2 then
              ⟨true, items, false, (triageLoop emails items).1⟩
            else ⟨true, [], true, (triageLoop emails items).1⟩
          | some _ => ⟨true, [], true, []⟩ := rfl

/-- Unfolding of `performWatchman` for a reply that did not throw. -/
theorem performWatchman_some (emails : List EmailData) (fail : String → Bool)
    (response : String) :
    performWatchman emails fail (some response)
      = match extractArray response with
        | none => ⟨true, [], true, [], []⟩
        | some s =>
          match jsonParse s with
          | none => ⟨true, [], true, [], []⟩
          | some (Json.arr items) =>
            ⟨true, items, false,
              (watchLoop emails fail items).1, (watchLoop emails fail items).2⟩
          | some _ => ⟨true, [], true, [], []⟩ := rfl

/-! ## Claim theorems -/

/-- C1: partitioning any message set `M` with an empty decision list yields
`important_candidates = M` and `vip = ∅` — with no decisions, nothing is
suppressed and nothing is pinned, so the Drafter receives all of `M`. -/
theorem partition_empty_decisions (M : List EmailData) :
    importantEmails M [] = M ∧ vipEmails M [] = [] := by
  constructor
  · simp [importantEmails]
  · simp [vipEmails]

/-- C2 counterexample: for a message carrying a single `vip` decision, the
Watchman input is the concatenation `[msgA, msgA]` — the message occurs
twice, refuting "as a set union, contains each message once". -/
theorem watchman_union_cex :
    watchmanInput [msgA] [vipDec] = [msgA, msgA] ∧
    (watchmanInput [msgA] [vipDec]).count msgA = 2 := by
  constructor <;> rfl

/-- C2 amended: the Watchman input is the list concatenation
`important_candidates ++ vip`; it contains exactly the messages of the two
parts (so every important candidate and every vip message is watched), but
multiplicities add — a vip message that is also an important candidate
appears twice rather than once. -/
theorem watchman_union_amended (emails : List EmailData) (ds : List Json) :
    watchmanInput emails ds = importantEmails emails ds ++ vipEmails emails ds ∧
    (∀ e : EmailData, e ∈ watchmanInput emails ds ↔
      e ∈ importantEmails emails ds ∨ e ∈ vipEmails emails ds) ∧
    (∀ e : EmailData, (watchmanInput emails ds).count e =
      (importantEmails emails ds).count e + (vipEmails emails ds).count e) := by
  refine ⟨rfl, fun e => ?_, fun e => ?_⟩
  · simp [watchmanInput]
  · simp [watchmanInput]

/-- C3 counterexample: with the two decisions `[archive, vip]` for the same
message id, the code suppresses the message (Drafter input empty) *and*
pins it as VIP — a combination no single effective decision produces — and
the side-effect loop applies both actions (archive and VIP-label). -/
theorem triage_tiebreak_cex :
    (∀ r ∈ dupDecisions,
      (importantEmails [msgA] dupDecisions, vipEmails [msgA] dupDecisions) ≠
        (importantEmails [msgA] [r], vipEmails [msgA] [r])) ∧
    (triageLoop [msgA] dupDecisions).1 =
      [TriageEffect.archived "m1", TriageEffect.vipLabeled "m1"] := by
  constructor
  · decide
  · rfl

/-- C3 amended: no tie-break selects a single decision.  Every decision with
a known message id takes effect: a message is withheld from the Drafter iff
*any* of its decisions is archive/label, pinned as VIP iff *any* of its
decisions is vip, and the side-effect loop applies each (non-`null`)
decision in list order independently of the others. -/
theorem triage_duplicates_amended (emails : List EmailData) (ds : List Json) :
    (∀ e : EmailData, e ∈ importantEmails emails ds ↔ e ∈ emails ∧
      (ds.any (fun r => jFieldIsStr r "id" e.id &&
        (jFieldIsStr r "action" "archive" || jFieldIsStr r "action" "label"))) = false) ∧
    (∀ e : EmailData, e ∈ vipEmails emails ds ↔ e ∈ emails ∧
      (ds.any (fun r => jFieldIsStr r "id" e.id && jFieldIsStr r "action" "vip")) = true) ∧
    (∀ (r : Json) (rest : List Json), r ≠ Json.null →
      triageLoop emails (r :: rest) =
        (triageStep emails r ++ (triageLoop emails rest).1, (triageLoop emails rest).2)) := by
  refine ⟨fun e => ?_, fun e => ?_, fun r rest hr => ?_⟩
  · simp [importantEmails]
  · simp [vipEmails]
  · cases r with
    | null => exact absurd rfl hr
    | bool b => rfl
    | num n => rfl
    | str s => rfl
    | arr a => rfl
    | obj f => rfl

/-- C3 amended, witness: the characterization at the concrete duplicated
decisions, and loop-decomposition at the concrete `archive` decision. -/
theorem triage_duplicates_amended_witness :
    (msgA ∈ importantEmails [msgA] dupDecisions ↔ msgA ∈ [msgA] ∧
      (dupDecisions.any (fun r => jFieldIsStr r "id" msgA.id &&
        (jFieldIsStr r "action" "archive" || jFieldIsStr r "action" "label"))) = false) ∧
    triageLoop [msgA] (archiveDec :: [vipDec]) =
      (triageStep [msgA] archiveDec ++ (triageLoop [msgA] [vipDec]).1,
        (triageLoop [msgA] [vipDec]).2) :=
  ⟨(triage_duplicates_amended [msgA] dupDecisions).1 msgA,
   (triage_duplicates_amended [msgA] dupDecisions).2.2 archiveDec [vipDec]
     (by unfold archiveDec; intro hc; cases hc)⟩

/-- C4 counterexample: `performTriage`, invoked on the empty message list,
still issues the language-model call (`modelCalled = true`), refuting "no
model call occurs for the empty input". -/
theorem classifier_empty_input_cex :
    (performTriage [] (some "[]")).modelCalled = true ∧
    (performTriage [] (some "[]")).decisions = [] := by
  constructor <;> rfl

/-- C4 amended: the empty-input guard sits in the orchestrator, not the
classifier: `run` returns before Phase 1 when the message list is empty, so
the classifier is never invoked on an empty list during a run; `performTriage`
itself calls the model unconditionally, whatever its input. -/
theorem classifier_empty_guard_amended :
    (∀ modelReply : Option String, runTriagePhase [] modelReply = none) ∧
    (∀ (emails : List EmailData) (modelReply : Option String),
      (performTriage emails modelReply).modelCalled = true) := by
  refine ⟨fun _ => rfl, fun emails reply => ?_⟩
  cases reply with
  | none => rfl
  | some r =>
    unfold performTriage
    repeat' split
    all_goals rfl

/-- C5: when the model reply contains no bracketed span, or the extracted
span is not valid JSON, both the classification pass and the Watchman pass
log the failure, return an empty decision/intervention list with no side
effects, and (being total functions past the outer catch) do not throw. -/
theorem parse_soft_failure (emails : List EmailData) (fail : String → Bool)
    (reply : String)
    (h : extractArray reply = none ∨
      ∃ s, extractArray reply = some s ∧ jsonParse s = none) :
    performTriage emails (some reply) = ⟨true, [], true, []⟩ ∧
    performWatchman emails fail (some reply) = ⟨true, [], true, [], []⟩ := by
  rcases h with h | ⟨s, h1, h2⟩
  · constructor
    · rw [performTriage_some, h]
    · rw [performWatchman_some, h]
  · constructor
    · rw [performTriage_some, h1]
      dsimp only
      rw [h2]
    · rw [performWatchman_some, h1]
      dsimp only
      rw [h2]

/-- C5 witness: a prose-only reply with no array literal. -/
theorem parse_soft_failure_witness :
    performTriage [] (some "I cannot classify these messages.") = ⟨true, [], true, []⟩ ∧
    performWatchman [] (fun _ => false) (some "I cannot classify these messages.")
      = ⟨true, [], true, [], []⟩ :=
  parse_soft_failure [] (fun _ => false) "I cannot classify these messages."
    (Or.inl (by decide))

/-- C6 counterexample: a reply consisting of a well-formed one-decision array
followed by prose containing another bracket.  The first array parses to one
decision, yet the pipeline returns no decisions at all: the greedy match
spans from the first `[` to the *last* `]`, the span is not valid JSON, and
the failure path yields `[]` — refuting "the decisions of that first array
are returned". -/
theorem greedy_bracket_cex :
    jsonParse cexFirstArray = some (Json.arr [Json.obj
      [("id", Json.str "m1"), ("action", Json.str "vip"), ("reason", Json.str "r")]]) ∧
    (performTriage [msgA] (some cexReply)).decisions = [] ∧
    (performTriage [msgA] (some cexReply)).failureLogged = true := by
  refine ⟨rfl, rfl, rfl⟩

/-- C6 amended: the classifier extracts the span from the first `[` to the
last `]` of the reply (greedy regex), then JSON-parses that span.  The
decisions of the first array are therefore returned exactly when no later
`]` follows it: for a reply `pre ++ [mid] ++ post` with no `[` in `pre` and
no `]` in `post`, parsing the embedded array to `items` (none of them
`null`), the returned decisions are `items`. -/
theorem first_array_amended (emails : List EmailData) (pre mid post : String)
    (h1 : ∀ c ∈ pre.toList, (c == '[') = false)
    (h2 : ∀ c ∈ post.toList, (c == ']') = false)
    (items : List Json)
    (h3 : jsonParse ("[" ++ mid ++ "]") = some (Json.arr items))
    (h4 : Json.null ∉ items) :
    (performTriage emails (some (pre ++ ("[" ++ mid ++ "]") ++ post))).decisions
      = items := by
  rw [performTriage_some, extractArray_sandwich pre mid post h1 h2]
  dsimp only
  rw [h3]
  dsimp only
  rw [if_pos (triageLoop_ok_of_no_null emails items h4)]

/-- C6 amended, witness: a reply with leading prose, one embedded decision
array and bracket-free trailing prose. -/
theorem first_array_amended_witness :
    (performTriage [] (some ("Here you go: " ++ ("[" ++ wMid ++ "]") ++ " -- done."))).decisions
      = wItems :=
  first_array_amended [] "Here you go: " wMid " -- done." (by decide) (by decide)
    wItems (by rfl)
    (by intro hmem; unfold wItems at hmem;
        cases List.mem_singleton.mp hmem)

/-- C7: a message whose label set contains `DRAFT` or `SENT` is never passed
to the language-model drafting call, and (message ids being unique in the
working set) no draft record is produced for it: the label pre-filter fires
before any model invocation. -/
theorem drafter_skips_terminal (env : DraftEnv) (emails : List EmailData)
    (e : EmailData)
    (hl : "DRAFT" ∈ e.labels ∨ "SENT" ∈ e.labels)
    (hid : ∀ e' ∈ emails, e'.id = e.id → e' = e) :
    e ∉ (createDrafts env emails).llmCalls ∧
    ∀ r ∈ (createDrafts env emails).records, r.emailId ≠ e.id := by
  have hskip : draftSkipLabels e = true := by
    rcases hl with hl | hl <;>
      simp [draftSkipLabels, List.contains, List.elem_iff, hl]
  have hsurv : draftSurvives e = false := by simp [draftSurvives, hskip]
  constructor
  · intro hmem
    rw [createDrafts, draftLoop_llmCalls] at hmem
    have hx := List.of_mem_filter hmem
    rw [hsurv] at hx
    cases hx
  · intro r hr hEq
    obtain ⟨x, hx, hrec⟩ := draftLoop_records_mem env _ r hr
    obtain ⟨hxs, hxid⟩ := draftHandle_record_eq env x r hrec
    have hxe : x = e := hid x (List.take_subset _ _ hx) (by rw [← hxid, hEq])
    rw [hxe, hsurv] at hxs
    cases hxs

/-- C7 witness: a one-message working set whose message carries `DRAFT`. -/
theorem drafter_skips_terminal_witness :
    msgTerminal ∉ (createDrafts envA [msgTerminal]).llmCalls ∧
    ∀ r ∈ (createDrafts envA [msgTerminal]).records, r.emailId ≠ msgTerminal.id :=
  drafter_skips_terminal envA [msgTerminal] msgTerminal (Or.inl (by decide))
    (by decide)

/-- C8: processing a `nudge` or `flag` intervention — in fact any intervention
other than a `draft-request` — performs no mailbox mutation; dropping every
non-`draft-request` intervention leaves the mutation list unchanged. -/
theorem watchman_advisory_log_only (emails : List EmailData) (fail : String → Bool) :
    (∀ i : Json, jFieldIsStr i "action" "draft-request" = false →
      (watchStep emails fail i).1 = []) ∧
    (∀ l : List Json, (watchLoop emails fail l).1 =
      (watchLoop emails fail
        (l.filter (fun i => jFieldIsStr i "action" "draft-request"))).1) := by
  have hstep : ∀ i : Json, jFieldIsStr i "action" "draft-request" = false →
      (watchStep emails fail i).1 = [] := by
    intro i h
    cases i with
    | null => rfl
    | bool b => unfold watchStep; rw [h]; repeat' split
                all_goals simp_all
    | num n => unfold watchStep; rw [h]; repeat' split
               all_goals simp_all
    | str s => unfold watchStep; rw [h]; repeat' split
               all_goals simp_all
    | arr a => unfold watchStep; rw [h]; repeat' split
               all_goals simp_all
    | obj f => unfold watchStep; rw [h]; repeat' split
               all_goals simp_all
  refine ⟨hstep, fun l => ?_⟩
  induction l with
  | nil => rfl
  | cons i rest ih =>
    rw [List.filter_cons]
    cases hc : jFieldIsStr i "action" "draft-request" with
    | true =>
      simp only [if_true]
      rw [watchLoop_cons, watchLoop_cons]
      dsimp only
      rw [ih]
    | false =>
      simp only [Bool.false_eq_true, if_false]
      rw [watchLoop_cons]
      dsimp only
      rw [hstep i hc, List.nil_append, ih]

/-- C8 witness: a concrete `nudge` intervention mutates nothing. -/
theorem watchman_advisory_log_only_witness :
    (watchStep [msgA] (fun _ => false) nudgeDec).1 = [] :=
  (watchman_advisory_log_only [msgA] (fun _ => false)).1 nudgeDec (by decide)

/-- C9 counterexample: a `draft-request` whose reference resolves to no known
message is skipped with *no* log entry at all (the `if (email)` has no
`else`), refuting "the failure is logged": processing the unresolvable
request followed by a nudge yields no effect and only the nudge's log line. -/
theorem watchman_unresolved_silent_cex :
    watchLoop [msgA] (fun _ => false) [unresolvedReq, nudgeDec]
      = ([], [WatchLog.nudged nudgeDec]) := rfl

/-- C9 amended: interventions are processed one at a time, a failing one never
aborting the rest; a `draft-request` whose draft creation fails is logged
(`Failed to process watchman intervention`) and skipped; but a
`draft-request` whose reference cannot be resolved is skipped silently,
producing neither mutation nor log line. -/
theorem watchman_failure_handling_amended (emails : List EmailData)
    (fail : String → Bool) :
    (∀ (i : Json) (rest : List Json),
      watchLoop emails fail (i :: rest) =
        ((watchStep emails fail i).1 ++ (watchLoop emails fail rest).1,
          (watchStep emails fail i).2 ++ (watchLoop emails fail rest).2)) ∧
    (∀ i : Json, jFieldIsStr i "action" "draft-request" = true →
      resolveRef emails i = none → watchStep emails fail i = ([], [])) ∧
    (∀ (i : Json) (e : EmailData), jFieldIsStr i "action" "draft-request" = true →
      resolveRef emails i = some e → fail e.id = true →
      watchStep emails fail i = ([], [WatchLog.stepError])) := by
  have hact : ∀ (i : Json), jFieldIsStr i "action" "draft-request" = true →
      ∀ w : String, jFieldIsStr i "action" w = ("draft-request" == w) := by
    intro i h w
    exact jFieldIsStr_of_jget (jget_of_jFieldIsStr h) w
  refine ⟨fun i rest => rfl, fun i h hres => ?_, fun i e h hres hf => ?_⟩
  · cases i with
    | null => simp [jFieldIsStr, jget] at h
    | bool b => simp +decide [watchStep, hact _ h, hres]
    | num n => simp +decide [watchStep, hact _ h, hres]
    | str s => simp +decide [watchStep, hact _ h, hres]
    | arr a => simp +decide [watchStep, hact _ h, hres]
    | obj f => simp +decide [watchStep, hact _ h, hres]
  · cases i with
    | null => simp [jFieldIsStr, jget] at h
    | bool b => simp +decide [watchStep, hact _ h, hres, hf]
    | num n => simp +decide [watchStep, hact _ h, hres, hf]
    | str s => simp +decide [watchStep, hact _ h, hres, hf]
    | arr a => simp +decide [watchStep, hact _ h, hres, hf]
    | obj f => simp +decide [watchStep, hact _ h, hres, hf]

/-- C9 amended, witness: the unresolvable request is silently skipped; the
resolvable one whose mailbox calls fail produces exactly the error log. -/
theorem watchman_failure_handling_amended_witness :
    watchStep [msgA] (fun _ => false) unresolvedReq = ([], []) ∧
    watchStep [msgA] (fun _ => true) resolvedReq = ([], [WatchLog.stepError]) :=
  ⟨(watchman_failure_handling_amended [msgA] (fun _ => false)).2.1 unresolvedReq
      (by decide) (by decide),
   (watchman_failure_handling_amended [msgA] (fun _ => true)).2.2 resolvedReq msgA
      (by decide) (by decide) rfl⟩

/-- C10: `getOrCreateLabel` first looks for an existing label by
case-insensitive name comparison and returns the existing label's id when one
matches (the store being well-formed: no empty label ids, as Gmail
guarantees); consequently a second call with the same name in any casing
returns the id of the first call, creates nothing, and leaves the store
unchanged. -/
theorem getOrCreateLabel_case_insensitive (s : LabelStore) (n1 n2 : String)
    (hwf : ∀ l ∈ s.labels, l.id ≠ "")
    (hcase : strLower n1 = strLower n2) :
    (∀ l : GmailLabel,
      s.labels.find? (fun l' => strLower l'.name == strLower n1) = some l →
        getOrCreateLabel n1 s = ⟨l.id, s, false⟩) ∧
    (getOrCreateLabel n2 (getOrCreateLabel n1 s).store).labelId
      = (getOrCreateLabel n1 s).labelId ∧
    (getOrCreateLabel n2 (getOrCreateLabel n1 s).store).created = false ∧
    (getOrCreateLabel n2 (getOrCreateLabel n1 s).store).store
      = (getOrCreateLabel n1 s).store := by
  have hpred : (fun l' : GmailLabel => strLower l'.name == strLower n2)
      = (fun l' : GmailLabel => strLower l'.name == strLower n1) := by
    funext l'
    rw [hcase]
  have hfound : ∀ l : GmailLabel,
      s.labels.find? (fun l' => strLower l'.name == strLower n1) = some l →
        getOrCreateLabel n1 s = ⟨l.id, s, false⟩ := by
    intro l hl
    have hid : l.id ≠ "" := hwf l (List.mem_of_find?_eq_some hl)
    unfold getOrCreateLabel
    rw [hl]
    dsimp only
    rw [if_neg (by simpa using hid)]
  refine ⟨hfound, ?_⟩
  cases hf : s.labels.find? (fun l' => strLower l'.name == strLower n1) with
  | some l =>
    have h1 : getOrCreateLabel n1 s = ⟨l.id, s, false⟩ := hfound l hf
    have h2 : getOrCreateLabel n2 s = ⟨l.id, s, false⟩ := by
      have hid : l.id ≠ "" := hwf l (List.mem_of_find?_eq_some hf)
      unfold getOrCreateLabel
      rw [hpred, hf]
      dsimp only
      rw [if_neg (by simpa using hid)]
    rw [h1, h2]
    exact ⟨rfl, rfl, rfl⟩
  | none =>
    have h1 : getOrCreateLabel n1 s = createLabel n1 s := by
      unfold getOrCreateLabel
      rw [hf]
    have hnewid : ("Label_" ++ toString s.nextId) ≠ "" := by
      intro hcontra
      have hlen := congrArg String.length hcontra
      simp [String.length_append] at hlen
      exact absurd hlen.1 (by decide)
    have h2 : (createLabel n1 s).store.labels.find?
        (fun l' => strLower l'.name == strLower n2)
        = some ⟨"Label_" ++ toString s.nextId, n1⟩ := by
      unfold createLabel
      rw [List.find?_append]
      have hnone : s.labels.find? (fun l' => strLower l'.name == strLower n2) = none := by
        rw [hpred]
        exact hf
      rw [hnone]
      simp [hcase]
    rw [h1]
    unfold getOrCreateLabel
    rw [h2]
    dsimp only
    rw [if_neg (by simpa using hnewid)]
    exact ⟨rfl, rfl, rfl⟩

/-- C10 witness: the store holds label `VIP` with id `L7`; calling with
`"vip"` then `"VIP"` returns `L7` twice, the second call creating nothing. -/
theorem getOrCreateLabel_case_insensitive_witness :
    (getOrCreateLabel "VIP" (getOrCreateLabel "vip" storeA).store).labelId
      = (getOrCreateLabel "vip" storeA).labelId ∧
    (getOrCreateLabel "VIP" (getOrCreateLabel "vip" storeA).store).created = false ∧
    (getOrCreateLabel "VIP" (getOrCreateLabel "vip" storeA).store).store
      = (getOrCreateLabel "vip" storeA).store :=
  (getOrCreateLabel_case_insensitive storeA "vip" "VIP" (by decide) (by decide)).2

end InboxAgent
